import Mathlib

/-!
Shallow embedding of the readbyyou-server book-assembly pipeline.

The definitions below are transcribed from the TypeScript source:
* the book controller (`createBook`, `addPagesToBook`, `changeBookVoice`,
  `updateBookProgress`, `transformBookForResponse` and its voice-version
  helpers),
* the `combine-book-audio` trigger task, and
* the run/batch result shapes of the trigger batch calls
  (`batchTriggerAndWait` returning a `runs` array, each run carrying
  `ok`, `output`, `error`).

External effects (storage uploads, OCR runs, TTS runs, the combine task's
downloads/ffmpeg/upload) are modelled as environment data supplied to the
embedded functions; the control flow, field updates and arithmetic are
transcribed from the source.  JavaScript numbers are modelled as `ℚ`,
`Math.round` as `jsRound`, the `x || d` idiom on numbers and strings as
`jsOrNum` / `jsOrStr`, and JS string truthiness as `strTruthy`.
-/

/-- JavaScript `Math.round`: round half toward positive infinity. -/
def jsRound (q : ℚ) : ℤ := ⌊q + 1/2⌋

/-- JavaScript `x || d` for an optional numeric field: `undefined`, `null`
and `0` are falsy, so they all fall back to the default. -/
def jsOrNum (x : Option ℚ) (d : ℚ) : ℚ :=
  match x with
  | some q => if q = 0 then d else q
  | none => d

/-- JavaScript `x || d` for an optional string field: `undefined`, `null`
and the empty string are falsy. -/
def jsOrStr (x : Option String) (d : String) : String :=
  match x with
  | some s => if s = "" then d else s
  | none => d

/-- JavaScript truthiness of a nullable string (`undefined`, `null` and
`""` are falsy). -/
def strTruthy (x : Option String) : Bool :=
  match x with
  | some s => s ≠ ""
  | none => false

/-- One entry of a book's `voice_versions` JSON array
(`{voiceId, audioUrl, totalDuration}`). -/
structure VoiceVersion where
  voiceId : String
  audioUrl : String
  totalDuration : ℚ
deriving Repr, DecidableEq

/-- The persisted book record (the columns the book controller reads and
writes: `id`, `user_id`, `title`, `page_count`, `text_content`,
`voice_versions`, `current_voice_id`, `voice_progress`, `status`).
`voice_progress` is a JSON object mapping voice ids to seconds, modelled
as an association list in key-insertion order. -/
structure BookRecord where
  id : String
  userId : String
  title : String
  pageCount : Nat
  textContent : List String
  voiceVersions : List VoiceVersion
  currentVoiceId : Option String
  voiceProgress : List (String × ℚ)
  status : String
deriving Repr, DecidableEq

/-- A user voice record (`prisma.userVoice`), as far as `changeBookVoice`
reads it. -/
structure UserVoice where
  id : String
  userId : String
  voiceName : String
deriving Repr, DecidableEq

/-- Lookup in a JS-object-modelled progress map. -/
def lookupProg (l : List (String × ℚ)) (k : String) : Option ℚ :=
  (l.find? (fun p => p.1 == k)).map (fun p => p.2)

/-- JS object assignment `obj[k] = v`: replace the value if the key is
present (keeping its position), otherwise append the new key. -/
def setProg (l : List (String × ℚ)) (k : String) (v : ℚ) : List (String × ℚ) :=
  if l.any (fun p => p.1 == k) then
    l.map (fun p => if p.1 == k then (k, v) else p)
  else
    l ++ [(k, v)]

/-- `getCurrentVoiceVersion` from the book controller: `null` unless
`current_voice_id` is truthy, else `voice_versions.find(v => v.voiceId ===
current_voice_id) || null`. -/
def getCurrentVoiceVersion (book : BookRecord) : Option VoiceVersion :=
  if strTruthy book.currentVoiceId then
    book.voiceVersions.find? (fun v => v.voiceId == book.currentVoiceId.getD "")
  else
    none

/-- `getCurrentAudioUrl` from the book controller:
`currentVersion?.audioUrl || null`. -/
def getCurrentAudioUrl (book : BookRecord) : Option String :=
  match getCurrentVoiceVersion book with
  | some v => if v.audioUrl = "" then none else some v.audioUrl
  | none => none

/-- `getCurrentTotalDuration` from the book controller:
`currentVersion?.totalDuration || 0`. -/
def getCurrentTotalDuration (book : BookRecord) : ℚ :=
  jsOrNum ((getCurrentVoiceVersion book).map (fun v => v.totalDuration)) 0

/-- `getCurrentProgress` from the book controller: `0` unless
`current_voice_id` is truthy, else `voice_progress[current_voice_id] || 0`. -/
def getCurrentProgress (book : BookRecord) : ℚ :=
  if strTruthy book.currentVoiceId then
    jsOrNum (lookupProg book.voiceProgress (book.currentVoiceId.getD "")) 0
  else
    0

/-- The `progress_percentage` convenience field computed by
`transformBookForResponse`:
`currentVoiceVersion && totalDuration > 0 ?
 Math.round((currentProgress / totalDuration) * 100 * 10) / 10 : 0`. -/
def progressPercentage (book : BookRecord) : ℚ :=
  match getCurrentVoiceVersion book with
  | some v =>
      if 0 < v.totalDuration then
        (jsRound (getCurrentProgress book / v.totalDuration * 100 * 10) : ℚ) / 10
      else 0
  | none => 0

/-- An HTTP error response produced by an early `return res.status(...)`. -/
structure ApiErr where
  status : Nat
  msg : String
deriving Repr, DecidableEq

/-- The request body's `currentTime` as JavaScript sees it: either a
number or some non-number value. -/
inductive JSVal where
  | num (q : ℚ)
  | other
deriving Repr, DecidableEq

/-- `updateBookProgress` (PATCH `/books/:id/progress`), transcribed from
the book controller.  Validation order follows the source: missing id,
then the `typeof currentTime !== 'number' || currentTime < 0` check, then
the ownership lookup, then the `currentTime > totalDuration + 5` upper
bound; only after all of these is `voice_progress[current_voice_id]`
assigned `Math.round(currentTime)` and the record updated. -/
def updateBookProgress (books : List BookRecord) (bookId userId : String)
    (currentTime : JSVal) : Except ApiErr BookRecord :=
  if bookId = "" then
    .error ⟨400, "Book ID is required"⟩
  else
    match currentTime with
    | .other => .error ⟨400, "currentTime must be a non-negative number (seconds)"⟩
    | .num t =>
      if t < 0 then
        .error ⟨400, "currentTime must be a non-negative number (seconds)"⟩
      else
        match books.find? (fun b => b.id == bookId && b.userId == userId) with
        | none => .error ⟨404, "Book not found"⟩
        | some book =>
          let currentTotalDuration := getCurrentTotalDuration book
          if t > currentTotalDuration + 5 then
            .error ⟨400, "Current time cannot exceed total duration"⟩
          else
            let voiceProgress :=
              if strTruthy book.currentVoiceId then
                setProg book.voiceProgress (book.currentVoiceId.getD "")
                  (jsRound t : ℚ)
              else book.voiceProgress
            .ok { book with voiceProgress := voiceProgress }

/-- `prisma.book.update({where: {id}, data})`: replace the record with a
matching id. -/
def replaceBook (books : List BookRecord) (b : BookRecord) : List BookRecord :=
  books.map (fun x => if x.id == b.id then b else x)

/-- The store-level effect of `updateBookProgress`: the single
`prisma.book.update` happens only on the success path; every error path
returns before it. -/
def updateBookProgressStore (books : List BookRecord) (bookId userId : String)
    (currentTime : JSVal) : Except ApiErr BookRecord × List BookRecord :=
  match updateBookProgress books bookId userId currentTime with
  | .ok b => (.ok b, replaceBook books b)
  | .error e => (.error e, books)

/-- A single run in the array returned by `batchTriggerAndWait`: the
controller reads `run.ok`, `run.output` and (on failure) `run.error`. -/
structure Run (α : Type) where
  ok : Bool
  output : Option α
  error : Option String
deriving Repr, DecidableEq

/-- The overall shape of a `batchTriggerAndWait` call as the controller
sees it: either a result object carrying a `runs` array, or a failure of
the call itself (a thrown exception, or a result with no `runs`
property) -- both of the latter hit the same early-return error paths. -/
inductive BatchResult (α : Type) where
  | runs (rs : List (Run α))
  | failed (msg : String)
deriving Repr, DecidableEq

/-- Output of the `extract-text-from-image` task as read by the
controller: a `success` flag plus optional `text` and `confidence`. -/
structure OCROutput where
  success : Bool
  text : Option String
  confidence : Option String
deriving Repr, DecidableEq

/-- Output of the `text-to-speech` task as read by the controller: a
`success` flag, the echoed `chunkIndex`, and optional `audioUrl` and
`duration`. -/
structure TTSOutput where
  success : Bool
  chunkIndex : Int
  audioUrl : Option String
  duration : Option ℚ
deriving Repr, DecidableEq

/-- The controller's per-batch processing loop: walk the `runs` array in
order; at the first run with `!(run.ok && run.output?.success)` return its
(0-based) index (the source immediately returns a 500 naming index + 1);
if every run is good, collect the outputs in array order. -/
def collectOutputs {α : Type} (isSucc : α → Bool) : List (Run α) → Except Nat (List α)
  | [] => .ok []
  | r :: rs =>
    if r.ok then
      match r.output with
      | some o =>
        if isSucc o then
          match collectOutputs isSucc rs with
          | .ok os => .ok (o :: os)
          | .error i => .error (i + 1)
        else .error 0
      | none => .error 0
    else .error 0

/-- Map a function receiving the (0-based) array index over a list,
modelling the controller's indexed `for` loops and `.map((x, index) =>
...)` calls. -/
def enumMap {α β : Type} (f : Nat → α → β) : Nat → List α → List β
  | _, [] => []
  | i, x :: xs => f i x :: enumMap f (i + 1) xs

/-- Stable insertion step for `sortK`: insert before the first element
with a strictly larger key (so elements with equal keys keep their
original relative order, as JS `Array.prototype.sort` guarantees). -/
def insertK {α : Type} (k : α → Int) (x : α) : List α → List α
  | [] => [x]
  | y :: ys => if k x < k y then x :: y :: ys else y :: insertK k x ys

/-- Stable sort by an integer key, modelling the source's
`.sort((a, b) => a.key - b.key)` calls. -/
def sortK {α : Type} (k : α → Int) (l : List α) : List α :=
  l.foldl (fun acc x => insertK k x acc) []

/-- One entry of the controller's `sortedOCRResults` array
(`{pageNumber, text, confidence}`). -/
structure PageInfo where
  pageNumber : Int
  text : String
  confidence : String
deriving Repr, DecidableEq

/-- One entry of the controller's `chunkUrls` arrays
(`{chunkIndex, audioUrl, duration}`), also the element type of the
combine task's `chunkUrls` payload field. -/
structure ChunkInfo where
  chunkIndex : Int
  audioUrl : Option String
  duration : ℚ
deriving Repr, DecidableEq

/-- Payload of the `combine-book-audio` task. -/
structure CombinePayload where
  userId : String
  bookId : String
  totalChunks : Nat
  chunkUrls : List ChunkInfo
  isAppending : Bool
  existingAudioUrl : Option String
deriving Repr, DecidableEq

/-- Result object of the `combine-book-audio` task (`CombineResult` in the
source). -/
structure CombineOut where
  success : Bool
  finalAudioUrl : Option String
  finalAudioPath : Option String
  totalDuration : Option ℚ
  deletedChunks : Option Nat
  error : Option String
deriving Repr, DecidableEq

/-- Outcomes of the combine task's external effects (download of the
existing audio, per-chunk downloads, the ffmpeg concat, the final upload),
plus the URL/path the storage upload reports. -/
structure CombineEnv where
  existingDownloadOk : Bool
  chunkDownloadsOk : Bool
  ffmpegOk : Bool
  outputNonEmpty : Bool
  uploadOk : Bool
  uploadUrl : String
  uploadPath : String
deriving Repr, DecidableEq

/-- A failed `CombineOut` (the task's catch-all returns
`{success: false, error}`). -/
def combineFail (msg : String) : CombineOut :=
  ⟨false, none, none, none, none, some msg⟩

/-- The `combine-book-audio` task, transcribed from
`src/trigger/combine-book-audio.ts`.  Input validation (empty chunk list,
chunk-count mismatch) happens first; then the external steps in source
order (existing-audio download when `isAppending && existingAudioUrl`,
chunk downloads, ffmpeg concat, output check, upload).  `totalDuration`
is accumulated **only over the new chunks' reported durations** (the
existing base audio's duration is never added) and the task returns
`Math.round` of that sum. -/
def combineBookAudio (p : CombinePayload) (env : CombineEnv) : CombineOut :=
  if p.chunkUrls.isEmpty then
    combineFail "No audio chunks provided"
  else if p.chunkUrls.length ≠ p.totalChunks then
    combineFail "chunk count mismatch"
  else if p.isAppending && strTruthy p.existingAudioUrl && !env.existingDownloadOk then
    combineFail "Failed to download audio chunks from storage"
  else if !env.chunkDownloadsOk then
    combineFail "Failed to download audio chunks from storage"
  else if !env.ffmpegOk then
    combineFail "Audio combination failed - FFmpeg processing error"
  else if !env.outputNonEmpty then
    combineFail "Combined audio file is empty"
  else if !env.uploadOk then
    combineFail "Failed to upload combined audio file"
  else
    let sortedChunks := sortK (fun c => c.chunkIndex) p.chunkUrls
    let totalDuration := (sortedChunks.map (fun c => c.duration)).sum
    { success := true
      finalAudioUrl := some env.uploadUrl
      finalAudioPath := some env.uploadPath
      totalDuration := some (jsRound totalDuration : ℚ)
      deletedChunks := some sortedChunks.length
      error := none }

/-- The shape `tasks.triggerAndWait` hands back to the controller. -/
structure TriggerRes where
  ok : Bool
  output : Option CombineOut
  error : Option String
deriving Repr, DecidableEq

/-- Per-image result of `uploadImage` (`UploadResult` in
`utils/supabaseStorage.ts`). -/
structure UploadResult where
  success : Bool
  publicUrl : Option String
  error : Option String
deriving Repr, DecidableEq

/-- Environment for one pipeline-running operation: the storage upload
oracle (one result per image, order preserved -- `uploadMultipleImages` is
a `Promise.all` over a per-file map), the OCR and TTS batch results, the
combine trigger's own completion flag and error, the combine task's
effects, and the title-detection response (`none` = the OpenAI call
threw, `some c` = it returned content `c`). -/
structure PipelineEnv where
  upload : String → UploadResult
  ocr : BatchResult OCROutput
  tts : BatchResult TTSOutput
  combineOk : Bool
  combineErr : String
  combineEnv : CombineEnv
  titleResponse : Option (Option String)

/-- The controller-side `tasks.triggerAndWait('combine-book-audio', p)`
call: if the trigger run completed, `ok` is true and `output` is the
task's returned object (even when that object has `success: false`);
otherwise `ok` is false. -/
def runCombine (p : CombinePayload) (env : PipelineEnv) : TriggerRes :=
  if env.combineOk then
    ⟨true, some (combineBookAudio p env.combineEnv), none⟩
  else
    ⟨false, none, some env.combineErr⟩

/-- PHASE 4 of `createBook`: `bookTitle` is the provided title if truthy;
otherwise the OpenAI detection result when the call succeeded and
returned a truthy title other than `"Unknown Book"`, with
`"Book " + bookId.substring(0, 8)` as the fallback (also used when the
call threw).  This step never fails the operation. -/
def resolveTitle (providedTitle : Option String) (titleResponse : Option (Option String))
    (bookId : String) : String :=
  if strTruthy providedTitle then providedTitle.getD ""
  else
    let fallback := "Book " ++ bookId.take 8
    match titleResponse with
    | none => fallback
    | some c =>
        if strTruthy c && (c.getD "" != "Unknown Book") then c.getD "" else fallback

/-- PHASE 0 of the pipeline operations: `uploadMultipleImages` followed
by the controller's failed-upload check and `publicUrl!` extraction
(`uploadMultipleImages` is a `Promise.all` over a per-file map, so there
is exactly one result per image, in order). -/
def processUploads (images : List String) (upload : String → UploadResult) :
    Except ApiErr (List String) :=
  let uploadResults := images.map upload
  if (uploadResults.filter (fun r => !r.success)).length > 0 then
    .error ⟨500, "Failed to upload some images"⟩
  else
    .ok (uploadResults.map (fun r => r.publicUrl.getD ""))

/-- The controller's OCR batch block, identical in `createBook`
(`startPage = 0`) and `addPagesToBook` (`startPage = page_count`): walk
the `runs` array by position failing on the first bad run, tag entry
`index` with `pageNumber = startPage + index + 1` (the position in the
returned array, not anything carried in the run's output), sort by
`pageNumber`, and reject an empty result with the operation's message. -/
def processOCRBatch (startPage : Nat) (batch : BatchResult OCROutput)
    (emptyMsg : String) : Except ApiErr (List PageInfo) :=
  match batch with
  | .failed _ => .error ⟨500, "Failed to process OCR batch"⟩
  | .runs rs =>
    match collectOutputs (fun o => o.success) rs with
    | .error i => .error ⟨500, "Failed to extract text from image " ++ toString (i + 1)⟩
    | .ok os =>
      let sorted := sortK (fun p => p.pageNumber)
        (enumMap (fun i o => PageInfo.mk ((startPage : Int) + i + 1)
          (jsOrStr o.text "") (jsOrStr o.confidence "low")) 0 os)
      if sorted.length = 0 then .error ⟨500, emptyMsg⟩
      else .ok sorted

/-- The controller's TTS batch block, identical in all three operations:
walk the `runs` array by position failing on the first bad run, tag each
entry with the `chunkIndex` echoed in the run's **output**, sort by it,
and reject an empty result with the operation's message. -/
def processTTSBatch (batch : BatchResult TTSOutput) (emptyMsg : String) :
    Except ApiErr (List ChunkInfo) :=
  match batch with
  | .failed _ => .error ⟨500, "Failed to process TTS batch"⟩
  | .runs ts =>
    match collectOutputs (fun o => o.success) ts with
    | .error i =>
        .error ⟨500, "Failed to convert text to speech for chunk " ++ toString (i + 1)⟩
    | .ok tos =>
      let chunks := sortK (fun c => c.chunkIndex)
        (tos.map (fun o => ChunkInfo.mk o.chunkIndex o.audioUrl (jsOrNum o.duration 0)))
      if chunks.length = 0 then .error ⟨500, emptyMsg⟩
      else .ok chunks

/-- `createBook` (POST `/books/create`), transcribed from the book
controller.  Input validation, then PHASE 0 (uploads), PHASE 1 (OCR
batch, page numbers from result-array position), PHASE 2 (TTS batch,
chunk indices from the runs' outputs), PHASE 3 (combine task with no
base audio; its `ok` flag checked, then `typeof finalAudioUrl !==
'string'`), PHASE 4 (title), then the single `prisma.book.create` whose
row this function returns on success. -/
def createBook (userId bookId : String) (images : List String)
    (voiceId : Option String) (providedTitle : Option String) (env : PipelineEnv) :
    Except ApiErr BookRecord :=
  if images.isEmpty then .error ⟨400, "At least one image file is required"⟩
  else if !strTruthy voiceId then .error ⟨400, "Voice ID is required"⟩
  else if images.length > 10 then .error ⟨400, "Maximum 10 images allowed per book"⟩
  else
    match processUploads images env.upload with
    | .error e => .error e
    | .ok imageUrls =>
      match processOCRBatch 0 env.ocr
          "No text was successfully extracted from any images" with
      | .error e => .error e
      | .ok sortedOCRResults =>
        match processTTSBatch env.tts
            "No audio was successfully generated from any text" with
        | .error e => .error e
        | .ok chunkUrls =>
          let combineResult :=
            runCombine ⟨userId, bookId, chunkUrls.length, chunkUrls, false, none⟩ env
          if !combineResult.ok then
            .error ⟨500, "Failed to combine audio chunks"⟩
          else
            match combineResult.output with
            | none => .error ⟨500, "Final audio URL is missing or invalid"⟩
            | some out =>
              match out.finalAudioUrl with
              | none => .error ⟨500, "Final audio URL is missing or invalid"⟩
              | some finalAudioUrl =>
                let bookTitle := resolveTitle providedTitle env.titleResponse bookId
                .ok
                  { id := bookId
                    userId := userId
                    title := bookTitle
                    pageCount := imageUrls.length
                    textContent := sortedOCRResults.map (fun p => p.text)
                    voiceVersions :=
                      [⟨voiceId.getD "", finalAudioUrl, jsOrNum out.totalDuration 0⟩]
                    currentVoiceId := voiceId
                    voiceProgress := []
                    status := "completed" }

/-- The store-level effect of `createBook`: the single
`prisma.book.create` is the last step of the pipeline, so an error leaves
the set of persisted books untouched. -/
def createBookStore (books : List BookRecord) (userId bookId : String)
    (images : List String) (voiceId : Option String) (providedTitle : Option String)
    (env : PipelineEnv) : Except ApiErr BookRecord × List BookRecord :=
  match createBook userId bookId images voiceId providedTitle env with
  | .ok b => (.ok b, books ++ [b])
  | .error e => (.error e, books)

/-- `addPagesToBook` (POST `/books/:id/add-pages`), transcribed from the
book controller.  Validation and ownership/status checks, then the same
upload/OCR/TTS pipeline with `pageNumber` continuing from
`existingBook.page_count` and the combine task invoked in append mode
with the current voice's audio as base.  On success the voice version
matching `current_voice_id` (not the request's `voiceId`!) gets its
`audioUrl` replaced and its `totalDuration` set to
`combineResult.output.totalDuration || version.totalDuration`;
`text_content` is extended and `page_count` increased by the number of
uploaded images. -/
def addPagesToBook (books : List BookRecord) (bookId userId : String)
    (voiceId : Option String) (images : List String) (env : PipelineEnv) :
    Except ApiErr BookRecord :=
  if bookId = "" then .error ⟨400, "Book ID is required"⟩
  else if images.isEmpty then .error ⟨400, "At least one image file is required"⟩
  else if !strTruthy voiceId then .error ⟨400, "Voice ID is required"⟩
  else if images.length > 10 then .error ⟨400, "Maximum 10 images allowed per addition"⟩
  else
    match books.find? (fun b => b.id == bookId && b.userId == userId) with
    | none => .error ⟨404, "Book not found"⟩
    | some existingBook =>
      if existingBook.status ≠ "completed" then
        .error ⟨400, "Can only add pages to completed books"⟩
      else
        match processUploads images env.upload with
        | .error e => .error e
        | .ok newImageUrls =>
          match processOCRBatch existingBook.pageCount env.ocr
              "No text was successfully extracted from any new images" with
          | .error e => .error e
          | .ok sortedOCRResults =>
            match processTTSBatch env.tts
                "No audio was successfully generated from any new text" with
            | .error e => .error e
            | .ok newChunkUrls =>
              let combineResult := runCombine
                ⟨userId, bookId, newChunkUrls.length, newChunkUrls, true,
                  getCurrentAudioUrl existingBook⟩ env
              if !combineResult.ok then
                .error ⟨500, "Failed to append new audio to existing book"⟩
              else
                let finalAudioUrl := combineResult.output.bind (fun o => o.finalAudioUrl)
                if !strTruthy finalAudioUrl then
                  .error ⟨500, "Final audio URL is missing or invalid"⟩
                else
                  let updatedVoiceVersions := existingBook.voiceVersions.map
                    (fun version =>
                      if some version.voiceId = existingBook.currentVoiceId then
                        { version with
                          audioUrl := finalAudioUrl.getD ""
                          totalDuration :=
                            jsOrNum (combineResult.output.bind (fun o => o.totalDuration))
                              version.totalDuration }
                      else version)
                  let newTextContent :=
                    existingBook.textContent ++ sortedOCRResults.map (fun p => p.text)
                  .ok { existingBook with
                        voiceVersions := updatedVoiceVersions
                        textContent := newTextContent
                        pageCount := existingBook.pageCount + newImageUrls.length }

/-- The store-level effect of `addPagesToBook`: the single
`prisma.book.update` is the last step, so an error leaves the store
untouched. -/
def addPagesToBookStore (books : List BookRecord) (bookId userId : String)
    (voiceId : Option String) (images : List String) (env : PipelineEnv) :
    Except ApiErr BookRecord × List BookRecord :=
  match addPagesToBook books bookId userId voiceId images env with
  | .ok b => (.ok b, replaceBook books b)
  | .error e => (.error e, books)

/-- `changeBookVoice` (POST `/books/:id/change-voice`), transcribed from
the book controller.  After validation, ownership/status checks and the
`prisma.userVoice` ownership check: if `voice_versions` already contains
the target voice only `current_voice_id` is updated (pure switch, no
pipeline work); otherwise every stored page text is re-synthesized with
the target voice, combined with no base audio, appended as a new
`voice_versions` entry and made current, and the previous active voice's
current progress seconds are copied into `voice_progress[voiceId]`. -/
def changeBookVoice (books : List BookRecord) (voices : List UserVoice)
    (bookId userId : String) (voiceId : Option String) (env : PipelineEnv) :
    Except ApiErr BookRecord :=
  if bookId = "" then .error ⟨400, "Book ID is required"⟩
  else if !strTruthy voiceId then .error ⟨400, "Voice ID is required"⟩
  else
    let vid := voiceId.getD ""
    match books.find? (fun b => b.id == bookId && b.userId == userId) with
    | none => .error ⟨404, "Book not found"⟩
    | some existingBook =>
      if existingBook.status ≠ "completed" then
        .error ⟨400, "Can only change voice for completed books"⟩
      else
        match voices.find? (fun v => v.id == vid && v.userId == userId) with
        | none => .error ⟨404, "Voice not found"⟩
        | some _voice =>
          match existingBook.voiceVersions.find? (fun v => v.voiceId == vid) with
          | some _existingVoiceVersion =>
            .ok { existingBook with currentVoiceId := some vid }
          | none =>
            if existingBook.textContent.isEmpty then
              .error ⟨400, "Book text content not available. Cannot create new voice version."⟩
            else
              match processTTSBatch env.tts
                  "No audio was successfully generated from any text" with
              | .error e => .error e
              | .ok newChunkUrls =>
                let combineResult := runCombine
                  ⟨userId, bookId, newChunkUrls.length, newChunkUrls, false, none⟩ env
                if !combineResult.ok then
                  .error ⟨500, "Failed to combine audio chunks for new voice"⟩
                else
                  let finalAudioUrl := combineResult.output.bind (fun o => o.finalAudioUrl)
                  let totalDuration :=
                    jsOrNum (combineResult.output.bind (fun o => o.totalDuration)) 0
                  if !strTruthy finalAudioUrl then
                    .error ⟨500, "Final audio URL is missing or invalid"⟩
                  else
                    let newVoiceVersion : VoiceVersion :=
                      ⟨vid, finalAudioUrl.getD "", totalDuration⟩
                    let currentProgress := getCurrentProgress existingBook
                    .ok { existingBook with
                          voiceVersions := existingBook.voiceVersions ++ [newVoiceVersion]
                          currentVoiceId := some vid
                          voiceProgress :=
                            setProg existingBook.voiceProgress vid currentProgress }

/-- The store-level effect of `changeBookVoice`: the single
`prisma.book.update` is the last step, so an error leaves the store
untouched. -/
def changeBookVoiceStore (books : List BookRecord) (voices : List UserVoice)
    (bookId userId : String) (voiceId : Option String) (env : PipelineEnv) :
    Except ApiErr BookRecord × List BookRecord :=
  match changeBookVoice books voices bookId userId voiceId env with
  | .ok b => (.ok b, replaceBook books b)
  | .error e => (.error e, books)

/-! ### Helper lemmas about the embedded primitives -/

theorem jsOrStr_some_empty (s : String) : jsOrStr (some s) "" = s := by
  unfold jsOrStr
  by_cases h : s = "" <;> simp [h]

theorem strTruthy_some_iff (s : String) : strTruthy (some s) = true ↔ s ≠ "" := by
  simp [strTruthy]

theorem lookupProg_setProg_self (l : List (String × ℚ)) (k : String) (v : ℚ) :
    lookupProg (setProg l k v) k = some v := by
  unfold setProg
  split
  · next hmem =>
    unfold lookupProg
    induction l with
    | nil => simp at hmem
    | cons p l ih =>
      by_cases hp : p.1 == k
      · simp [hp, List.find?]
      · simp only [List.any_cons, Bool.or_eq_true] at hmem
        rcases hmem with hmem | hmem
        · exact absurd hmem hp
        · simpa [hp, List.find?, List.map_cons] using ih hmem
  · next hmem =>
    unfold lookupProg
    induction l with
    | nil => simp [List.find?]
    | cons p l ih =>
      simp only [List.any_cons, Bool.or_eq_true, not_or] at hmem
      simpa [List.find?, hmem.1] using ih hmem.2

theorem length_insertK {α : Type} (k : α → Int) (x : α) (l : List α) :
    (insertK k x l).length = l.length + 1 := by
  induction l with
  | nil => rfl
  | cons y ys ih =>
    unfold insertK
    split
    · simp
    · simpa using ih

theorem length_sortK_aux {α : Type} (k : α → Int) (l acc : List α) :
    (l.foldl (fun a x => insertK k x a) acc).length = acc.length + l.length := by
  induction l generalizing acc with
  | nil => simp
  | cons x xs ih =>
    simp only [List.foldl_cons]
    rw [ih, length_insertK]
    simp only [List.length_cons]
    omega

theorem length_sortK {α : Type} (k : α → Int) (l : List α) :
    (sortK k l).length = l.length := by
  unfold sortK
  rw [length_sortK_aux]
  simp

theorem insertK_of_ge {α : Type} (k : α → Int) (x : α) (l : List α)
    (h : ∀ y ∈ l, ¬ k x < k y) : insertK k x l = l ++ [x] := by
  induction l with
  | nil => rfl
  | cons y ys ih =>
    unfold insertK
    rw [if_neg (h y (by simp))]
    simp only [List.cons_append, List.cons.injEq, true_and]
    exact ih (fun z hz => h z (by simp [hz]))

theorem sortK_eq_self_aux {α : Type} (k : α → Int) (l acc : List α)
    (h : (acc ++ l).Pairwise (fun a b => k a ≤ k b)) :
    l.foldl (fun a x => insertK k x a) acc = acc ++ l := by
  induction l generalizing acc with
  | nil => simp
  | cons x xs ih =>
    simp only [List.foldl_cons]
    have hacc : ∀ y ∈ acc, ¬ k x < k y := by
      intro y hy
      have := (List.pairwise_append.mp h).2.2 y hy x (by simp)
      omega
    rw [insertK_of_ge k x acc hacc]
    have h' : ((acc ++ [x]) ++ xs).Pairwise (fun a b => k a ≤ k b) := by
      simpa [List.append_assoc] using h
    simpa [List.append_assoc] using ih (acc ++ [x]) h'

theorem sortK_eq_self {α : Type} (k : α → Int) (l : List α)
    (h : l.Pairwise (fun a b => k a ≤ k b)) : sortK k l = l := by
  unfold sortK
  simpa using sortK_eq_self_aux k l [] (by simpa using h)

theorem sum_insertK (k : ChunkInfo → Int) (x : ChunkInfo) (l : List ChunkInfo) :
    ((insertK k x l).map (fun c => c.duration)).sum
      = x.duration + (l.map (fun c => c.duration)).sum := by
  induction l with
  | nil => simp [insertK]
  | cons y ys ih =>
    unfold insertK
    split
    · simp
    · simp only [List.map_cons, List.sum_cons, ih]
      ring

theorem sum_sortK_aux (k : ChunkInfo → Int) (l acc : List ChunkInfo) :
    ((l.foldl (fun a x => insertK k x a) acc).map (fun c => c.duration)).sum
      = (acc.map (fun c => c.duration)).sum + (l.map (fun c => c.duration)).sum := by
  induction l generalizing acc with
  | nil => simp
  | cons x xs ih =>
    simp only [List.foldl_cons]
    rw [ih, sum_insertK]
    simp only [List.map_cons, List.sum_cons]
    ring

theorem sum_sortK (k : ChunkInfo → Int) (l : List ChunkInfo) :
    ((sortK k l).map (fun c => c.duration)).sum = (l.map (fun c => c.duration)).sum := by
  unfold sortK
  rw [sum_sortK_aux]
  simp

theorem length_enumMap {α β : Type} (f : Nat → α → β) (s : Nat) (l : List α) :
    (enumMap f s l).length = l.length := by
  induction l generalizing s with
  | nil => rfl
  | cons x xs ih => simp [enumMap, ih]

theorem mem_enumMap {α β : Type} {f : Nat → α → β} {s : Nat} {l : List α} {b : β}
    (h : b ∈ enumMap f s l) : ∃ j x, s ≤ j ∧ b = f j x := by
  induction l generalizing s with
  | nil => simp [enumMap] at h
  | cons y ys ih =>
    simp only [enumMap, List.mem_cons] at h
    rcases h with h | h
    · exact ⟨s, y, le_refl s, h⟩
    · obtain ⟨j, x, hj, hb⟩ := ih h
      exact ⟨j, x, by omega, hb⟩

theorem pairwise_enumMap {α β : Type} (f : Nat → α → β) (R : β → β → Prop)
    (hf : ∀ i j x y, i < j → R (f i x) (f j y)) (s : Nat) (l : List α) :
    (enumMap f s l).Pairwise R := by
  induction l generalizing s with
  | nil => simp [enumMap]
  | cons x xs ih =>
    simp only [enumMap]
    refine List.Pairwise.cons ?_ (ih (s + 1))
    intro b hb
    obtain ⟨j, y, hj, hb'⟩ := mem_enumMap hb
    exact hb' ▸ hf s j x y (by omega)

theorem enumMap_map {α β γ : Type} (f : Nat → β → γ) (g : α → β) (s : Nat) (l : List α) :
    enumMap f s (l.map g) = enumMap (fun i x => f i (g x)) s l := by
  induction l generalizing s with
  | nil => rfl
  | cons x xs ih => simp [enumMap, ih]

theorem map_enumMap {α β γ : Type} (g : β → γ) (f : Nat → α → β) (s : Nat) (l : List α) :
    (enumMap f s l).map g = enumMap (fun i x => g (f i x)) s l := by
  induction l generalizing s with
  | nil => rfl
  | cons x xs ih => simp [enumMap, ih]

theorem enumMap_eq_map {α β : Type} (f : Nat → α → β) (g : α → β)
    (h : ∀ i x, f i x = g x) (s : Nat) (l : List α) : enumMap f s l = l.map g := by
  induction l generalizing s with
  | nil => rfl
  | cons x xs ih => simp [enumMap, ih, h]

/-- Whether the controller's per-run check `run.ok && run.output?.success`
passes. -/
def goodRun {α : Type} (isSucc : α → Bool) (r : Run α) : Bool :=
  r.ok && (match r.output with
           | some o => isSucc o
           | none => false)

theorem collectOutputs_ok_length {α : Type} {isSucc : α → Bool}
    {rs : List (Run α)} {os : List α}
    (h : collectOutputs isSucc rs = .ok os) : os.length = rs.length := by
  induction rs generalizing os with
  | nil =>
    simp only [collectOutputs] at h
    cases h
    rfl
  | cons r rest ih =>
    simp only [collectOutputs] at h
    split at h
    · split at h
      · next o _ =>
        split at h
        · split at h
          · next os' hrec =>
            cases h
            simpa using ih hrec
          · cases h
        · cases h
      · cases h
    · cases h

theorem collectOutputs_ne_ok_of_bad {α : Type} {isSucc : α → Bool}
    {rs : List (Run α)} {r : Run α}
    (hmem : r ∈ rs) (hbad : goodRun isSucc r = false) :
    ∀ os, collectOutputs isSucc rs ≠ .ok os := by
  induction rs with
  | nil => simp at hmem
  | cons x rest ih =>
    intro os h
    simp only [collectOutputs] at h
    rcases List.mem_cons.mp hmem with heq | hmem'
    · subst heq
      unfold goodRun at hbad
      split at h
      · split at h
        · next o _ =>
          split at h
          · next hs =>
            simp_all
          · cases h
        · cases h
      · simp_all
    · split at h
      · split at h
        · split at h
          · split at h
            · next os' hrec => exact ih hmem' os' hrec
            · cases h
          · cases h
        · cases h
      · cases h

theorem collectOutputs_map_ok {α : Type} (isSucc : α → Bool) (os : List α)
    (h : ∀ o ∈ os, isSucc o = true) :
    collectOutputs isSucc (os.map (fun o => Run.mk true (some o) none)) = .ok os := by
  induction os with
  | nil => rfl
  | cons o rest ih =>
    have h1 : isSucc o = true := h o (by simp)
    have h2 := ih (fun x hx => h x (by simp [hx]))
    simp [collectOutputs, h1, h2]

/-! ### Claim theorems -/

/-- C10: every update-progress call whose `currentTime` is not a number
or is negative fails with a 400 validation error before the book is read
(the conclusion holds for every store, and the store is returned
unchanged), matching the source's `typeof currentTime !== 'number' ||
currentTime < 0` check that precedes the `prisma.book.findFirst`. -/
theorem updateProgress_invalid_time_rejected (books : List BookRecord)
    (bookId userId : String) (v : JSVal)
    (hv : v = JSVal.other ∨ ∃ q, v = JSVal.num q ∧ q < 0) :
    ∃ e, updateBookProgressStore books bookId userId v = (.error e, books) ∧
      e.status = 400 := by
  unfold updateBookProgressStore updateBookProgress
  by_cases hid : bookId = ""
  · exact ⟨⟨400, "Book ID is required"⟩, by simp [hid], rfl⟩
  · rcases hv with hv | ⟨q, hv, hq⟩
    · subst hv
      exact ⟨⟨400, "currentTime must be a non-negative number (seconds)"⟩,
        by simp [hid], rfl⟩
    · subst hv
      exact ⟨⟨400, "currentTime must be a non-negative number (seconds)"⟩,
        by simp [hid, hq], rfl⟩

/-- Witness for `updateProgress_invalid_time_rejected` at a concrete
negative input. -/
theorem updateProgress_invalid_time_rejected_witness :
    ∃ e, updateBookProgressStore [] "b1" "u1" (JSVal.num (-1)) = (.error e, []) ∧
      e.status = 400 :=
  updateProgress_invalid_time_rejected [] "b1" "u1" (JSVal.num (-1))
    (Or.inr ⟨-1, rfl, by norm_num⟩)

/-- C6: `updateBookProgress` with `elapsedSeconds` strictly above the
current voice version's `totalDuration + 5` reports a 400 validation
failure and leaves the store (hence the progress mapping) unchanged;
every accepted call sets `voice_progress[current_voice_id]` to
`Math.round(elapsedSeconds)`. -/
theorem updateProgress_clamp_and_record (books : List BookRecord)
    (bookId userId : String) (t : ℚ) (book : BookRecord)
    (hid : bookId ≠ "")
    (hfind : books.find? (fun b => b.id == bookId && b.userId == userId) = some book) :
    (t > getCurrentTotalDuration book + 5 →
      ∃ e, updateBookProgressStore books bookId userId (.num t) = (.error e, books) ∧
        e.status = 400) ∧
    (0 ≤ t → t ≤ getCurrentTotalDuration book + 5 →
      ∀ v, book.currentVoiceId = some v → v ≠ "" →
        ∃ b, updateBookProgress books bookId userId (.num t) = .ok b ∧
          lookupProg b.voiceProgress v = some (jsRound t : ℚ)) := by
  constructor
  · intro hgt
    unfold updateBookProgressStore updateBookProgress
    by_cases hneg : t < 0
    · exact ⟨⟨400, "currentTime must be a non-negative number (seconds)"⟩,
        by simp [hid, hneg], rfl⟩
    · refine ⟨⟨400, "Current time cannot exceed total duration"⟩, ?_, rfl⟩
      simp [hid, hneg, hfind, hgt]
  · intro h0 hle v hcv hv
    unfold updateBookProgress
    have hneg : ¬ t < 0 := not_lt.mpr h0
    have hgt : ¬ t > getCurrentTotalDuration book + 5 := not_lt.mpr hle
    rw [if_neg hid]
    simp only [hfind, if_neg hneg, if_neg hgt]
    refine ⟨_, rfl, ?_⟩
    rw [hcv]
    rw [if_pos (by simp [strTruthy, hv])]
    simp only [Option.getD_some]
    exact lookupProg_setProg_self book.voiceProgress v ((jsRound t : ℚ))

/-- Witness for `updateProgress_clamp_and_record`: a concrete book with a
10-second rendering; 16 s is rejected, 7.4 s is accepted and recorded as
7 s. -/
theorem updateProgress_clamp_and_record_witness :
    ((16 : ℚ) > getCurrentTotalDuration ⟨"b1", "u1", "T", 1, ["p"],
        [⟨"V", "url", 10⟩], some "V", [], "completed"⟩ + 5 →
      ∃ e, updateBookProgressStore [⟨"b1", "u1", "T", 1, ["p"],
          [⟨"V", "url", 10⟩], some "V", [], "completed"⟩] "b1" "u1" (.num 16) =
        (.error e, [⟨"b1", "u1", "T", 1, ["p"],
          [⟨"V", "url", 10⟩], some "V", [], "completed"⟩]) ∧ e.status = 400) ∧
    ((0 : ℚ) ≤ 16 → (16 : ℚ) ≤ getCurrentTotalDuration ⟨"b1", "u1", "T", 1, ["p"],
        [⟨"V", "url", 10⟩], some "V", [], "completed"⟩ + 5 →
      ∀ v, (⟨"b1", "u1", "T", 1, ["p"],
          [⟨"V", "url", 10⟩], some "V", [], "completed"⟩ : BookRecord).currentVoiceId
            = some v → v ≠ "" →
        ∃ b, updateBookProgress [⟨"b1", "u1", "T", 1, ["p"],
            [⟨"V", "url", 10⟩], some "V", [], "completed"⟩] "b1" "u1" (.num 16) = .ok b ∧
          lookupProg b.voiceProgress v = some (jsRound 16 : ℚ)) :=
  updateProgress_clamp_and_record
    [⟨"b1", "u1", "T", 1, ["p"], [⟨"V", "url", 10⟩], some "V", [], "completed"⟩]
    "b1" "u1" 16
    ⟨"b1", "u1", "T", 1, ["p"], [⟨"V", "url", 10⟩], some "V", [], "completed"⟩
    (by decide) (by decide)

/-- A reachable book state: rendering of 10 s for voice `V`, with 15 s of
recorded progress (`updateBookProgress` accepts up to
`totalDuration + 5 = 15`). -/
def overProgressBook : BookRecord :=
  ⟨"b1", "u1", "T", 1, ["p"], [⟨"V", "url", 10⟩], some "V", [("V", 15)], "completed"⟩

/-- C7 counterexample: `transformBookForResponse` does **not** clamp
`progress_percentage` to [0,100].  With a 10-second rendering and 15
recorded seconds (a state `updateBookProgress` accepts), the computed
percentage is 150. -/
theorem progressPercentage_exceeds_hundred :
    progressPercentage overProgressBook = 150 ∧
    ¬ progressPercentage overProgressBook ≤ 100 := by
  have hv : getCurrentVoiceVersion overProgressBook = some ⟨"V", "url", 10⟩ := by
    simp [getCurrentVoiceVersion, overProgressBook, strTruthy, List.find?]
  have hp : getCurrentProgress overProgressBook = 15 := by
    simp only [getCurrentProgress, overProgressBook, strTruthy, lookupProg, jsOrNum,
      List.find?]
    norm_num
    decide
  have h : progressPercentage overProgressBook = (jsRound (15 / 10 * 100 * 10) : ℚ) / 10 := by
    unfold progressPercentage
    rw [hv]
    dsimp only
    rw [if_pos (by norm_num), hp]
  have hr : jsRound (15 / 10 * 100 * 10 : ℚ) = 1500 := by
    unfold jsRound
    norm_num
  rw [h, hr]
  norm_num

/-- C7 amended: `progress_percentage` equals
`Math.round(progress / duration * 100 * 10) / 10` with **no clamping**
(it stays in [0,100] only when the recorded progress is between 0 and the
duration, and can exceed 100 otherwise); it is 0 when there is no current
voice version or its duration is 0. -/
theorem progressPercentage_formula :
    (∀ book v, getCurrentVoiceVersion book = some v → 0 < v.totalDuration →
      progressPercentage book =
        (jsRound (getCurrentProgress book / v.totalDuration * 100 * 10) : ℚ) / 10 ∧
      (0 ≤ getCurrentProgress book → 0 ≤ progressPercentage book) ∧
      (0 ≤ getCurrentProgress book → getCurrentProgress book ≤ v.totalDuration →
        progressPercentage book ≤ 100)) ∧
    (∀ book, getCurrentVoiceVersion book = none → progressPercentage book = 0) ∧
    (∀ book v, getCurrentVoiceVersion book = some v → v.totalDuration = 0 →
      progressPercentage book = 0) := by
  refine ⟨?_, ?_, ?_⟩
  · intro book v hv hd
    have hform : progressPercentage book =
        (jsRound (getCurrentProgress book / v.totalDuration * 100 * 10) : ℚ) / 10 := by
      unfold progressPercentage
      rw [hv]
      dsimp only
      rw [if_pos hd]
    refine ⟨hform, ?_, ?_⟩
    · intro hp0
      rw [hform]
      have hx : (0 : ℚ) ≤ getCurrentProgress book / v.totalDuration * 100 * 10 := by
        positivity
      have hz : (0 : ℤ) ≤ jsRound (getCurrentProgress book / v.totalDuration * 100 * 10) := by
        unfold jsRound
        have : (0 : ℚ) ≤ getCurrentProgress book / v.totalDuration * 100 * 10 + 1/2 := by
          linarith
        exact Int.floor_nonneg.mpr this
      exact div_nonneg (by exact_mod_cast hz) (by norm_num)
    · intro hp0 hpd
      rw [hform]
      have hratio : getCurrentProgress book / v.totalDuration ≤ 1 :=
        (div_le_one hd).mpr hpd
      have hx : getCurrentProgress book / v.totalDuration * 100 * 10 ≤ 1000 := by
        nlinarith
      have hfl : jsRound (getCurrentProgress book / v.totalDuration * 100 * 10) ≤ 1000 := by
        unfold jsRound
        have h1 : getCurrentProgress book / v.totalDuration * 100 * 10 + 1/2
            ≤ 1000 + 1/2 := by linarith
        calc ⌊getCurrentProgress book / v.totalDuration * 100 * 10 + 1/2⌋
            ≤ ⌊(1000 : ℚ) + 1/2⌋ := Int.floor_le_floor h1
          _ = 1000 := by norm_num
      have : (jsRound (getCurrentProgress book / v.totalDuration * 100 * 10) : ℚ)
          ≤ 1000 := by exact_mod_cast hfl
      linarith
  · intro book hv
    unfold progressPercentage
    rw [hv]
  · intro book v hv hd
    unfold progressPercentage
    rw [hv]
    dsimp only
    rw [if_neg (by rw [hd]; exact lt_irrefl 0)]

/-- Witness for `progressPercentage_formula` at a concrete in-range book
(5 s of progress on a 10 s rendering: 50%). -/
theorem progressPercentage_formula_witness :
    progressPercentage ⟨"b1", "u1", "T", 1, ["p"], [⟨"V", "url", 10⟩],
        some "V", [("V", 5)], "completed"⟩ =
      (jsRound (getCurrentProgress ⟨"b1", "u1", "T", 1, ["p"], [⟨"V", "url", 10⟩],
        some "V", [("V", 5)], "completed"⟩ / (10 : ℚ) * 100 * 10) : ℚ) / 10 ∧
    ((0 : ℚ) ≤ getCurrentProgress ⟨"b1", "u1", "T", 1, ["p"], [⟨"V", "url", 10⟩],
        some "V", [("V", 5)], "completed"⟩ →
      0 ≤ progressPercentage ⟨"b1", "u1", "T", 1, ["p"], [⟨"V", "url", 10⟩],
        some "V", [("V", 5)], "completed"⟩) ∧
    ((0 : ℚ) ≤ getCurrentProgress ⟨"b1", "u1", "T", 1, ["p"], [⟨"V", "url", 10⟩],
        some "V", [("V", 5)], "completed"⟩ →
      getCurrentProgress ⟨"b1", "u1", "T", 1, ["p"], [⟨"V", "url", 10⟩],
        some "V", [("V", 5)], "completed"⟩ ≤ (10 : ℚ) →
      progressPercentage ⟨"b1", "u1", "T", 1, ["p"], [⟨"V", "url", 10⟩],
        some "V", [("V", 5)], "completed"⟩ ≤ 100) :=
  progressPercentage_formula.1
    ⟨"b1", "u1", "T", 1, ["p"], [⟨"V", "url", 10⟩], some "V", [("V", 5)], "completed"⟩
    ⟨"V", "url", 10⟩ (by decide) (by norm_num)

/-- C5: switching to a voice that already has a `voice_versions` entry is
a pure switch: for every pipeline environment (so no synthesis, combine
or upload work can influence the result) the operation returns the book
with only `current_voice_id` changed; `voice_versions`, `text_content`,
`page_count`, `voice_progress` and every existing voice's audio URL and
duration are untouched. -/
theorem changeVoice_existing_pure_switch (books : List BookRecord)
    (voices : List UserVoice) (bookId userId vid : String) (env : PipelineEnv)
    (book : BookRecord) (uv : UserVoice) (ev : VoiceVersion)
    (hbid : bookId ≠ "") (hvid : vid ≠ "")
    (hfind : books.find? (fun b => b.id == bookId && b.userId == userId) = some book)
    (hstat : book.status = "completed")
    (hvoice : voices.find? (fun v => v.id == vid && v.userId == userId) = some uv)
    (hver : book.voiceVersions.find? (fun v => v.voiceId == vid) = some ev) :
    changeBookVoice books voices bookId userId (some vid) env =
      .ok { book with currentVoiceId := some vid } := by
  unfold changeBookVoice
  rw [if_neg hbid]
  rw [if_neg (by simp [strTruthy, hvid])]
  simp only [Option.getD_some, hfind]
  rw [if_neg (fun hc => hc hstat)]
  simp only [hvoice, hver]

/-- Witness for `changeVoice_existing_pure_switch` at a concrete book
with two recorded voice versions. -/
theorem changeVoice_existing_pure_switch_witness :
    changeBookVoice
      [⟨"b1", "u1", "T", 1, ["p"], [⟨"V1", "a1", 10⟩, ⟨"V2", "a2", 11⟩],
        some "V1", [("V1", 3)], "completed"⟩]
      [⟨"V2", "u1", "Nice"⟩] "b1" "u1" (some "V2")
      ⟨fun _ => ⟨false, none, none⟩, .failed "down", .failed "down",
        false, "down", ⟨false, false, false, false, false, "", ""⟩, none⟩ =
      .ok { (⟨"b1", "u1", "T", 1, ["p"], [⟨"V1", "a1", 10⟩, ⟨"V2", "a2", 11⟩],
        some "V1", [("V1", 3)], "completed"⟩ : BookRecord) with
          currentVoiceId := some "V2" } :=
  changeVoice_existing_pure_switch
    [⟨"b1", "u1", "T", 1, ["p"], [⟨"V1", "a1", 10⟩, ⟨"V2", "a2", 11⟩],
      some "V1", [("V1", 3)], "completed"⟩]
    [⟨"V2", "u1", "Nice"⟩] "b1" "u1" "V2"
    ⟨fun _ => ⟨false, none, none⟩, .failed "down", .failed "down",
      false, "down", ⟨false, false, false, false, false, "", ""⟩, none⟩
    ⟨"b1", "u1", "T", 1, ["p"], [⟨"V1", "a1", 10⟩, ⟨"V2", "a2", 11⟩],
      some "V1", [("V1", 3)], "completed"⟩
    ⟨"V2", "u1", "Nice"⟩ ⟨"V2", "a2", 11⟩
    (by decide) (by decide) (by decide) rfl (by decide) (by decide)

/-- C4: when a successful Change-Voice call introduces a new rendering
(the target voice has no `voice_versions` entry beforehand), the
resulting book's `voice_progress[target]` equals the previously active
voice's current progress seconds at the moment of the switch
(`getCurrentProgress`), and in particular 0 when no voice was active. -/
theorem changeVoice_new_copies_progress (books : List BookRecord)
    (voices : List UserVoice) (bookId userId vid : String) (env : PipelineEnv)
    (book b : BookRecord)
    (hfind : books.find? (fun x => x.id == bookId && x.userId == userId) = some book)
    (hver : book.voiceVersions.find? (fun v => v.voiceId == vid) = none)
    (hok : changeBookVoice books voices bookId userId (some vid) env = .ok b) :
    lookupProg b.voiceProgress vid = some (getCurrentProgress book) ∧
    (book.currentVoiceId = none → lookupProg b.voiceProgress vid = some 0) := by
  unfold changeBookVoice at hok
  simp only [Option.getD_some, hfind, hver] at hok
  split at hok
  · simp at hok
  · split at hok
    · simp at hok
    · split at hok
      · simp at hok
      · split at hok
        · simp at hok
        · split at hok
          · simp at hok
          · split at hok
            · simp at hok
            · split at hok
              · simp at hok
              · split at hok
                · simp at hok
                · rw [Except.ok.injEq] at hok
                  subst hok
                  refine ⟨?_, ?_⟩
                  · exact lookupProg_setProg_self book.voiceProgress vid
                      (getCurrentProgress book)
                  · intro hcv
                    have h0 : getCurrentProgress book = 0 := by
                      simp [getCurrentProgress, hcv, strTruthy]
                    rw [← h0]
                    exact lookupProg_setProg_self book.voiceProgress vid
                      (getCurrentProgress book)

/-- Concrete book for the Change-Voice progress carry-over witness: voice
`V1` active with 30 s of recorded progress. -/
def carryBook : BookRecord :=
  ⟨"b1", "u1", "T", 1, ["p1"], [⟨"V1", "a1", 10⟩], some "V1", [("V1", 30)], "completed"⟩

/-- An all-success pipeline environment whose single TTS run reports
chunk 0 with 9 s of audio and whose combine upload lands at
`final.mp3`. -/
def carryEnv : PipelineEnv :=
  ⟨fun _ => ⟨true, some "up", none⟩,
   .failed "unused",
   .runs [⟨true, some ⟨true, 0, some "c0", some 9⟩, none⟩],
   true, "",
   ⟨true, true, true, true, true, "final.mp3", "path"⟩,
   none⟩

/-- Witness for `changeVoice_new_copies_progress`: switching `carryBook`
to the fresh voice `V2` copies the 30 s of `V1` progress. -/
theorem changeVoice_new_copies_progress_witness :
    lookupProg ({ carryBook with
        voiceVersions := [⟨"V1", "a1", 10⟩, ⟨"V2", "final.mp3", 9⟩],
        currentVoiceId := some "V2",
        voiceProgress := [("V1", 30), ("V2", 30)] } : BookRecord).voiceProgress "V2"
      = some (getCurrentProgress carryBook) ∧
    (carryBook.currentVoiceId = none →
      lookupProg ({ carryBook with
        voiceVersions := [⟨"V1", "a1", 10⟩, ⟨"V2", "final.mp3", 9⟩],
        currentVoiceId := some "V2",
        voiceProgress := [("V1", 30), ("V2", 30)] } : BookRecord).voiceProgress "V2"
      = some 0) :=
  changeVoice_new_copies_progress [carryBook] [⟨"V2", "u1", "n"⟩] "b1" "u1" "V2"
    carryEnv carryBook
    { carryBook with
      voiceVersions := [⟨"V1", "a1", 10⟩, ⟨"V2", "final.mp3", 9⟩],
      currentVoiceId := some "V2",
      voiceProgress := [("V1", 30), ("V2", 30)] }
    (by decide) (by decide)
    (by
      simp [changeBookVoice, carryBook, carryEnv, processTTSBatch, collectOutputs,
        sortK, insertK, combineBookAudio, combineFail, runCombine, jsOrNum, jsOrStr,
        strTruthy, getCurrentProgress, lookupProg, setProg, List.find?, jsRound]
      norm_num)

/-- A successful PHASE 0 yields exactly one public URL per input image
(`uploadMultipleImages` maps each file through `uploadImage`). -/
theorem processUploads_ok_length {images : List String} {u : String → UploadResult}
    {urls : List String} (h : processUploads images u = .ok urls) :
    urls.length = images.length := by
  unfold processUploads at h
  dsimp only at h
  split at h
  · simp at h
  · rw [Except.ok.injEq] at h
    subst h
    simp

/-- Inversion of a successful OCR stage: the batch call returned a `runs`
array in which every run passed the check, and the produced page list is
the page-number-sorted tagging of the outputs in array order. -/
theorem processOCRBatch_ok_inversion {startPage : Nat} {batch : BatchResult OCROutput}
    {emptyMsg : String} {pages : List PageInfo}
    (h : processOCRBatch startPage batch emptyMsg = .ok pages) :
    ∃ rs os, batch = .runs rs ∧ collectOutputs (fun o => o.success) rs = .ok os ∧
      pages = sortK (fun p => p.pageNumber)
        (enumMap (fun i o => PageInfo.mk ((startPage : Int) + i + 1)
          (jsOrStr o.text "") (jsOrStr o.confidence "low")) 0 os) := by
  unfold processOCRBatch at h
  split at h
  · simp at h
  · next rs =>
    split at h
    · simp at h
    · next os heq =>
      dsimp only at h
      split at h
      · simp at h
      · rw [Except.ok.injEq] at h
        exact ⟨rs, os, rfl, heq, h.symm⟩

/-- Inversion of a successful TTS stage: the batch call returned a `runs`
array in which every run passed the check, and the produced chunk list is
the chunk-index-sorted view of the outputs. -/
theorem processTTSBatch_ok_inversion {batch : BatchResult TTSOutput}
    {emptyMsg : String} {chunks : List ChunkInfo}
    (h : processTTSBatch batch emptyMsg = .ok chunks) :
    ∃ ts tos, batch = .runs ts ∧ collectOutputs (fun o => o.success) ts = .ok tos ∧
      chunks = sortK (fun c => c.chunkIndex)
        (tos.map (fun o => ChunkInfo.mk o.chunkIndex o.audioUrl (jsOrNum o.duration 0))) := by
  unfold processTTSBatch at h
  split at h
  · simp at h
  · next ts =>
    split at h
    · simp at h
    · next tos heq =>
      dsimp only at h
      split at h
      · simp at h
      · rw [Except.ok.injEq] at h
        exact ⟨ts, tos, rfl, heq, h.symm⟩

/-- A successful OCR stage yields exactly one page entry per run in the
batch's `runs` array. -/
theorem processOCRBatch_ok_length {startPage : Nat} {rs : List (Run OCROutput)}
    {emptyMsg : String} {pages : List PageInfo}
    (h : processOCRBatch startPage (.runs rs) emptyMsg = .ok pages) :
    pages.length = rs.length := by
  obtain ⟨rs', os, hrs, hcoll, hpages⟩ := processOCRBatch_ok_inversion h
  cases hrs
  rw [hpages, length_sortK, length_enumMap]
  exact collectOutputs_ok_length hcoll

/-- Inversion of a successful `createBook` run: every stage succeeded and
the persisted row's `text_content` is the OCR stage's page texts while
its `page_count` is the number of uploaded image URLs. -/
theorem createBook_ok_inversion {userId bookId : String} {images : List String}
    {voiceId providedTitle : Option String} {env : PipelineEnv} {b : BookRecord}
    (hok : createBook userId bookId images voiceId providedTitle env = .ok b) :
    ∃ imageUrls pages chunks,
      processUploads images env.upload = .ok imageUrls ∧
      processOCRBatch 0 env.ocr
        "No text was successfully extracted from any images" = .ok pages ∧
      processTTSBatch env.tts
        "No audio was successfully generated from any text" = .ok chunks ∧
      env.combineOk = true ∧
      b.textContent = pages.map (fun p => p.text) ∧
      b.pageCount = imageUrls.length ∧
      b.voiceProgress = [] ∧
      b.status = "completed" ∧
      b.currentVoiceId = voiceId := by
  unfold createBook at hok
  split at hok
  · simp at hok
  · split at hok
    · simp at hok
    · split at hok
      · simp at hok
      · split at hok
        · simp at hok
        · next imageUrls hup =>
          split at hok
          · simp at hok
          · next pages hocr =>
            split at hok
            · simp at hok
            · next chunks htts =>
              dsimp only at hok
              split at hok
              · simp at hok
              · next hco =>
                split at hok
                · simp at hok
                · next out heq₅ =>
                  split at hok
                  · simp at hok
                  · next fu heq₆ =>
                    rw [Except.ok.injEq] at hok
                    subst hok
                    refine ⟨imageUrls, pages, chunks, hup, hocr, htts, ?_, rfl, rfl,
                      rfl, rfl, rfl⟩
                    by_cases hc : env.combineOk
                    · exact hc
                    · exfalso
                      apply hco
                      simp [runCombine, hc]

/-- A batch outcome containing a failed sub-job: either the batch call
itself failed, or some run in its `runs` array fails the controller's
`run.ok && run.output?.success` check. -/
def batchHasBadRun {α : Type} (isSucc : α → Bool) : BatchResult α → Prop
  | .runs rs => ∃ r ∈ rs, goodRun isSucc r = false
  | .failed _ => True

/-- C3: if any extraction or synthesis sub-job of a Create Book operation
fails, the operation returns an error and the persistence layer's set of
books is exactly what it was before (the `prisma.book.create` is never
reached). -/
theorem createBook_failed_subjob_aborts (books : List BookRecord)
    (userId bookId : String) (images : List String)
    (voiceId providedTitle : Option String) (env : PipelineEnv)
    (hbad : batchHasBadRun (fun o => o.success) env.ocr ∨
            batchHasBadRun (fun o => o.success) env.tts) :
    ∃ e, createBook userId bookId images voiceId providedTitle env = .error e ∧
      createBookStore books userId bookId images voiceId providedTitle env =
        (.error e, books) := by
  have hne : ∀ b, createBook userId bookId images voiceId providedTitle env ≠ .ok b := by
    intro b hok
    obtain ⟨imageUrls, pages, chunks, hup, hocr, htts, hco, _⟩ :=
      createBook_ok_inversion hok
    rcases hbad with hbad | hbad
    · obtain ⟨rs, os, henv, hcoll, _⟩ := processOCRBatch_ok_inversion hocr
      rw [henv] at hbad
      obtain ⟨r, hr, hrbad⟩ := hbad
      exact collectOutputs_ne_ok_of_bad hr hrbad os hcoll
    · obtain ⟨ts, tos, henv, hcoll, _⟩ := processTTSBatch_ok_inversion htts
      rw [henv] at hbad
      obtain ⟨r, hr, hrbad⟩ := hbad
      exact collectOutputs_ne_ok_of_bad hr hrbad tos hcoll
  cases hres : createBook userId bookId images voiceId providedTitle env with
  | ok b => exact absurd hres (hne b)
  | error e =>
    refine ⟨e, rfl, ?_⟩
    unfold createBookStore
    rw [hres]

/-- Witness for `createBook_failed_subjob_aborts`: a synthesis batch
whose second run failed aborts a 2-image create and leaves the store
(holding one unrelated book) unchanged. -/
theorem createBook_failed_subjob_aborts_witness :
    ∃ e, createBook "u1" "b1" ["i0", "i1"] (some "V") none
        ⟨fun _ => ⟨true, some "u", none⟩,
         .runs [⟨true, some ⟨true, some "T0", some "high"⟩, none⟩,
                ⟨true, some ⟨true, some "T1", some "high"⟩, none⟩],
         .runs [⟨true, some ⟨true, 0, some "c0", some 1⟩, none⟩,
                ⟨false, none, some "tts exploded"⟩],
         true, "", ⟨true, true, true, true, true, "final", "p"⟩, none⟩ = .error e ∧
      createBookStore [⟨"b0", "u1", "Old", 1, ["x"], [⟨"V", "a", 3⟩], some "V", [],
          "completed"⟩]
        "u1" "b1" ["i0", "i1"] (some "V") none
        ⟨fun _ => ⟨true, some "u", none⟩,
         .runs [⟨true, some ⟨true, some "T0", some "high"⟩, none⟩,
                ⟨true, some ⟨true, some "T1", some "high"⟩, none⟩],
         .runs [⟨true, some ⟨true, 0, some "c0", some 1⟩, none⟩,
                ⟨false, none, some "tts exploded"⟩],
         true, "", ⟨true, true, true, true, true, "final", "p"⟩, none⟩ =
        (.error e, [⟨"b0", "u1", "Old", 1, ["x"], [⟨"V", "a", 3⟩], some "V", [],
          "completed"⟩]) :=
  createBook_failed_subjob_aborts
    [⟨"b0", "u1", "Old", 1, ["x"], [⟨"V", "a", 3⟩], some "V", [], "completed"⟩]
    "u1" "b1" ["i0", "i1"] (some "V") none
    ⟨fun _ => ⟨true, some "u", none⟩,
     .runs [⟨true, some ⟨true, some "T0", some "high"⟩, none⟩,
            ⟨true, some ⟨true, some "T1", some "high"⟩, none⟩],
     .runs [⟨true, some ⟨true, 0, some "c0", some 1⟩, none⟩,
            ⟨false, none, some "tts exploded"⟩],
     true, "", ⟨true, true, true, true, true, "final", "p"⟩, none⟩
    (Or.inr ⟨⟨false, none, some "tts exploded"⟩, by simp, by simp [goodRun]⟩)

/-- Inversion of a successful `addPagesToBook` run: the book was found
and completed, every stage succeeded with page numbers continuing from
`page_count`, `text_content` was extended by the new page texts,
`page_count` grew by the number of uploaded images, and the voice-version
list was rewritten by replacing exactly the entry matching
`current_voice_id` (the supplied voice id is never compared against
`voice_versions`). -/
theorem addPagesToBook_ok_inversion {books : List BookRecord}
    {bookId userId : String} {voiceId : Option String} {images : List String}
    {env : PipelineEnv} {b : BookRecord}
    (hok : addPagesToBook books bookId userId voiceId images env = .ok b) :
    ∃ book imageUrls pages chunks,
      books.find? (fun x => x.id == bookId && x.userId == userId) = some book ∧
      book.status = "completed" ∧
      processUploads images env.upload = .ok imageUrls ∧
      processOCRBatch book.pageCount env.ocr
        "No text was successfully extracted from any new images" = .ok pages ∧
      processTTSBatch env.tts
        "No audio was successfully generated from any new text" = .ok chunks ∧
      b.textContent = book.textContent ++ pages.map (fun p => p.text) ∧
      b.pageCount = book.pageCount + imageUrls.length ∧
      (∃ fu dOpt, b.voiceVersions = book.voiceVersions.map (fun version =>
        if some version.voiceId = book.currentVoiceId then
          { version with
            audioUrl := fu
            totalDuration := jsOrNum dOpt version.totalDuration }
        else version)) ∧
      b.currentVoiceId = book.currentVoiceId ∧
      b.voiceProgress = book.voiceProgress ∧
      b.status = book.status ∧
      b.id = book.id := by
  unfold addPagesToBook at hok
  split at hok
  · simp at hok
  · split at hok
    · simp at hok
    · split at hok
      · simp at hok
      · split at hok
        · simp at hok
        · split at hok
          · simp at hok
          · next book hfind =>
            split at hok
            · simp at hok
            · next hstat =>
              split at hok
              · simp at hok
              · next imageUrls hup =>
                split at hok
                · simp at hok
                · next pages hocr =>
                  split at hok
                  · simp at hok
                  · next chunks htts =>
                    dsimp only at hok
                    split at hok
                    · simp at hok
                    · split at hok
                      · simp at hok
                      · rw [Except.ok.injEq] at hok
                        subst hok
                        refine ⟨book, imageUrls, pages, chunks, hfind, ?_, hup, hocr,
                          htts, rfl, rfl, ⟨_, _, rfl⟩, rfl, rfl, rfl, rfl⟩
                        by_cases hs : book.status = "completed"
                        · exact hs
                        · exact absurd hs (by simpa using hstat)

/-- C9: under the batch contract (one run per submitted image), every
successful Create persists `page_count = number of images` and exactly
that many page texts, and every successful Add Pages extends
`text_content` by exactly the number of new images while increasing
`page_count` by the same amount — so `len(pages) == page_count` is
established by Create and preserved by Add Pages. -/
theorem pages_length_matches_page_count :
    (∀ userId bookId images voiceId providedTitle env b rs,
      env.ocr = BatchResult.runs rs → rs.length = images.length →
      createBook userId bookId images voiceId providedTitle env = .ok b →
      b.textContent.length = b.pageCount ∧ b.pageCount = images.length) ∧
    (∀ books bookId userId voiceId images env book b rs,
      env.ocr = BatchResult.runs rs → rs.length = images.length →
      books.find? (fun x => x.id == bookId && x.userId == userId) = some book →
      addPagesToBook books bookId userId voiceId images env = .ok b →
      b.textContent.length = book.textContent.length + images.length ∧
      b.pageCount = book.pageCount + images.length ∧
      (book.textContent.length = book.pageCount →
        b.textContent.length = b.pageCount)) := by
  constructor
  · intro userId bookId images voiceId providedTitle env b rs hrs hlen hok
    obtain ⟨imageUrls, pages, chunks, hup, hocr, htts, hco, htext, hpc, _⟩ :=
      createBook_ok_inversion hok
    rw [hrs] at hocr
    have hplen : pages.length = rs.length := processOCRBatch_ok_length hocr
    have hulen := processUploads_ok_length hup
    constructor
    · rw [htext, List.length_map, hplen, hlen, hpc, hulen]
    · rw [hpc, hulen]
  · intro books bookId userId voiceId images env book b rs hrs hlen hfind hok
    obtain ⟨book', imageUrls, pages, chunks, hfind', hstat, hup, hocr, htts,
      htext, hpc, hvv, _⟩ := addPagesToBook_ok_inversion hok
    rw [hfind] at hfind'
    injection hfind' with hbb
    subst hbb
    rw [hrs] at hocr
    have hplen : pages.length = rs.length := processOCRBatch_ok_length hocr
    have hulen := processUploads_ok_length hup
    refine ⟨?_, ?_, ?_⟩
    · rw [htext]
      simp [hplen, hlen]
    · rw [hpc, hulen]
    · intro hinv
      rw [htext, hpc, hulen]
      simp [hplen, hlen, hinv]

/-- Witness for `pages_length_matches_page_count`: a concrete 2-image
create and a concrete 1-image append, both checked end to end. -/
theorem pages_length_matches_page_count_witness :
    ((⟨"b9", "u9", "T9", 2, ["T0", "T1"], [⟨"V", "f9", 3⟩], some "V", [],
        "completed"⟩ : BookRecord).textContent.length =
      (⟨"b9", "u9", "T9", 2, ["T0", "T1"], [⟨"V", "f9", 3⟩], some "V", [],
        "completed"⟩ : BookRecord).pageCount ∧
     (⟨"b9", "u9", "T9", 2, ["T0", "T1"], [⟨"V", "f9", 3⟩], some "V", [],
        "completed"⟩ : BookRecord).pageCount = ["i0", "i1"].length) ∧
    ((⟨"b8", "u9", "T", 2, ["p0", "P1"], [⟨"V", "f10", 4⟩], some "V", [],
        "completed"⟩ : BookRecord).textContent.length =
      (⟨"b8", "u9", "T", 1, ["p0"], [⟨"V", "a", 7⟩], some "V", [],
        "completed"⟩ : BookRecord).textContent.length + ["i2"].length ∧
     (⟨"b8", "u9", "T", 2, ["p0", "P1"], [⟨"V", "f10", 4⟩], some "V", [],
        "completed"⟩ : BookRecord).pageCount =
      (⟨"b8", "u9", "T", 1, ["p0"], [⟨"V", "a", 7⟩], some "V", [],
        "completed"⟩ : BookRecord).pageCount + ["i2"].length ∧
     ((⟨"b8", "u9", "T", 1, ["p0"], [⟨"V", "a", 7⟩], some "V", [],
        "completed"⟩ : BookRecord).textContent.length =
      (⟨"b8", "u9", "T", 1, ["p0"], [⟨"V", "a", 7⟩], some "V", [],
        "completed"⟩ : BookRecord).pageCount →
      (⟨"b8", "u9", "T", 2, ["p0", "P1"], [⟨"V", "f10", 4⟩], some "V", [],
        "completed"⟩ : BookRecord).textContent.length =
      (⟨"b8", "u9", "T", 2, ["p0", "P1"], [⟨"V", "f10", 4⟩], some "V", [],
        "completed"⟩ : BookRecord).pageCount)) :=
  ⟨pages_length_matches_page_count.1 "u9" "b9" ["i0", "i1"] (some "V") (some "T9")
    ⟨fun _ => ⟨true, some "u", none⟩,
     .runs [⟨true, some ⟨true, some "T0", some "high"⟩, none⟩,
            ⟨true, some ⟨true, some "T1", some "high"⟩, none⟩],
     .runs [⟨true, some ⟨true, 0, some "c0", some 1⟩, none⟩,
            ⟨true, some ⟨true, 1, some "c1", some 2⟩, none⟩],
     true, "", ⟨true, true, true, true, true, "f9", "p"⟩, none⟩
    ⟨"b9", "u9", "T9", 2, ["T0", "T1"], [⟨"V", "f9", 3⟩], some "V", [], "completed"⟩
    [⟨true, some ⟨true, some "T0", some "high"⟩, none⟩,
     ⟨true, some ⟨true, some "T1", some "high"⟩, none⟩]
    rfl rfl
    (by
      simp [createBook, processUploads, processOCRBatch, processTTSBatch,
        collectOutputs, enumMap, sortK, insertK, runCombine, combineBookAudio,
        combineFail, jsOrNum, jsOrStr, strTruthy, resolveTitle, jsRound]
      norm_num),
   pages_length_matches_page_count.2
    [⟨"b8", "u9", "T", 1, ["p0"], [⟨"V", "a", 7⟩], some "V", [], "completed"⟩]
    "b8" "u9" (some "V") ["i2"]
    ⟨fun _ => ⟨true, some "u", none⟩,
     .runs [⟨true, some ⟨true, some "P1", some "high"⟩, none⟩],
     .runs [⟨true, some ⟨true, 1, some "c1", some 4⟩, none⟩],
     true, "", ⟨true, true, true, true, true, "f10", "p"⟩, none⟩
    ⟨"b8", "u9", "T", 1, ["p0"], [⟨"V", "a", 7⟩], some "V", [], "completed"⟩
    ⟨"b8", "u9", "T", 2, ["p0", "P1"], [⟨"V", "f10", 4⟩], some "V", [], "completed"⟩
    [⟨true, some ⟨true, some "P1", some "high"⟩, none⟩]
    rfl rfl (by decide)
    (by
      simp [addPagesToBook, processUploads, processOCRBatch, processTTSBatch,
        collectOutputs, enumMap, sortK, insertK, runCombine, combineBookAudio,
        combineFail, jsOrNum, jsOrStr, strTruthy, getCurrentAudioUrl,
        getCurrentVoiceVersion, jsRound, List.find?]
      norm_num)⟩

/-- Pipeline environment in which the extraction batch's runs come back
in reversed order: position 0 of `runs` holds the run that extracted the
second image ("T1") and position 1 the run that extracted the first
("T0").  Every sub-job succeeded; only the return order differs from the
submission order. -/
def reorderedRunsEnv : PipelineEnv :=
  ⟨fun _ => ⟨true, some "u", none⟩,
   .runs [⟨true, some ⟨true, some "T1", some "high"⟩, none⟩,
          ⟨true, some ⟨true, some "T0", some "high"⟩, none⟩],
   .runs [⟨true, some ⟨true, 0, some "c0", some 1⟩, none⟩,
          ⟨true, some ⟨true, 1, some "c1", some 1⟩, none⟩],
   true, "", ⟨true, true, true, true, true, "f", "p"⟩, none⟩

/-- C1 counterexample: `createBook` reconstructs page order from the
**position of results in the batch's returned array**, not from explicit
per-page indices (the OCR task's output carries no page number, and the
controller tags entry `index` with `pageNumber = index + 1`).  When the
extraction batch returns its two runs in reversed order, the persisted
`pages` are `["T1", "T0"]`: `pages[0]` is the second image's text, not
the first's — the operation still succeeds. -/
theorem createBook_order_from_array_position :
    createBook "u1" "b1" ["img0", "img1"] (some "V") (some "T") reorderedRunsEnv =
      .ok ⟨"b1", "u1", "T", 2, ["T1", "T0"], [⟨"V", "f", 2⟩], some "V", [],
        "completed"⟩ := by
  simp [createBook, reorderedRunsEnv, processUploads, processOCRBatch, processTTSBatch,
    collectOutputs, enumMap, sortK, insertK, runCombine, combineBookAudio, combineFail,
    jsOrNum, jsOrStr, strTruthy, resolveTitle, jsRound]
  norm_num

/-- A successful OCR run whose output carries extracted text `t`. -/
def goodTextRun (t : String) : Run OCROutput :=
  ⟨true, some ⟨true, some t, some "high"⟩, none⟩

/-- C1 amended: **when the extraction batch returns its runs in
submission order** (index correlation, as the batch platform guarantees),
a successful Create persists `pages = texts` — `pages[i]` is the i-th
image's extracted text — and `page_count = number of images`.  For
arbitrary return orders this fails (see the counterexample): extraction
order is taken from result-array position; only the synthesis stage
carries explicit chunk indices. -/
theorem createBook_pages_in_submission_order
    (userId bookId : String) (images texts : List String)
    (voiceId providedTitle : Option String) (env : PipelineEnv) (b : BookRecord)
    (hocr : env.ocr = .runs (texts.map goodTextRun))
    (hlen : texts.length = images.length)
    (hok : createBook userId bookId images voiceId providedTitle env = .ok b) :
    b.textContent = texts ∧ b.textContent.length = images.length ∧
    b.pageCount = images.length := by
  obtain ⟨imageUrls, pages, chunks, hup, hocrS, htts, hco, htext, hpc, _⟩ :=
    createBook_ok_inversion hok
  rw [hocr] at hocrS
  obtain ⟨rs, os, hrs, hcoll, hpages⟩ := processOCRBatch_ok_inversion hocrS
  injection hrs with hrs'
  subst hrs'
  have hmm : texts.map goodTextRun =
      (texts.map (fun t => OCROutput.mk true (some t) (some "high"))).map
        (fun o => Run.mk true (some o) none) := by
    rw [List.map_map]
    rfl
  rw [hmm] at hcoll
  rw [collectOutputs_map_ok (fun o => o.success)
    (texts.map (fun t => OCROutput.mk true (some t) (some "high")))
    (by
      intro o ho
      obtain ⟨t, _, rfl⟩ := List.mem_map.mp ho
      rfl)] at hcoll
  injection hcoll with hcoll'
  subst hcoll'
  have hsorted : pages = enumMap (fun i o => PageInfo.mk (((0 : Nat) : Int) + i + 1)
      (jsOrStr o.text "") (jsOrStr o.confidence "low")) 0
      (texts.map (fun t => OCROutput.mk true (some t) (some "high"))) := by
    rw [hpages]
    apply sortK_eq_self
    apply pairwise_enumMap
    intro i j x y hij
    simp only
    omega
  have htexts : pages.map (fun p => p.text) = texts := by
    rw [hsorted, map_enumMap, enumMap_map]
    rw [enumMap_eq_map _ (fun t => t) (fun i t => jsOrStr_some_empty t)]
    exact List.map_id texts
  have hulen := processUploads_ok_length hup
  refine ⟨?_, ?_, ?_⟩
  · rw [htext, htexts]
  · rw [htext, htexts, hlen]
  · rw [hpc, hulen]

/-- Witness for `createBook_pages_in_submission_order`: a 2-image create
whose extraction runs come back in submission order persists the texts
in image order. -/
theorem createBook_pages_in_submission_order_witness :
    (⟨"b9", "u9", "T9", 2, ["T0", "T1"], [⟨"V", "f9", 3⟩], some "V", [],
        "completed"⟩ : BookRecord).textContent = ["T0", "T1"] ∧
    (⟨"b9", "u9", "T9", 2, ["T0", "T1"], [⟨"V", "f9", 3⟩], some "V", [],
        "completed"⟩ : BookRecord).textContent.length = ["i0", "i1"].length ∧
    (⟨"b9", "u9", "T9", 2, ["T0", "T1"], [⟨"V", "f9", 3⟩], some "V", [],
        "completed"⟩ : BookRecord).pageCount = ["i0", "i1"].length :=
  createBook_pages_in_submission_order "u9" "b9" ["i0", "i1"] ["T0", "T1"]
    (some "V") (some "T9")
    ⟨fun _ => ⟨true, some "u", none⟩,
     .runs [⟨true, some ⟨true, some "T0", some "high"⟩, none⟩,
            ⟨true, some ⟨true, some "T1", some "high"⟩, none⟩],
     .runs [⟨true, some ⟨true, 0, some "c0", some 1⟩, none⟩,
            ⟨true, some ⟨true, 1, some "c1", some 2⟩, none⟩],
     true, "", ⟨true, true, true, true, true, "f9", "p"⟩, none⟩
    ⟨"b9", "u9", "T9", 2, ["T0", "T1"], [⟨"V", "f9", 3⟩], some "V", [], "completed"⟩
    rfl rfl
    (by
      simp [createBook, processUploads, processOCRBatch, processTTSBatch,
        collectOutputs, enumMap, sortK, insertK, runCombine, combineBookAudio,
        combineFail, jsOrNum, jsOrStr, strTruthy, resolveTitle, jsRound]
      norm_num)

/-- Book for the Add Pages duration check: its only rendering (`V1`,
active) has `totalDuration = 100`. -/
def durBook : BookRecord :=
  ⟨"b1", "u1", "T", 1, ["p1"], [⟨"V1", "old.mp3", 100⟩], some "V1", [], "completed"⟩

/-- All-success environment for a 1-page append whose new synthesis chunk
reports a 20-second duration. -/
def durEnv : PipelineEnv :=
  ⟨fun _ => ⟨true, some "u", none⟩,
   .runs [⟨true, some ⟨true, some "p2", some "high"⟩, none⟩],
   .runs [⟨true, some ⟨true, 1, some "c1", some 20⟩, none⟩],
   true, "", ⟨true, true, true, true, true, "new.mp3", "p"⟩, none⟩

/-- C2 failing-input evaluation: appending one 20-second chunk to a book
whose active rendering lasts 100 s stores `totalDuration = 20`, not
`100 + 20`.  The `combine-book-audio` task accumulates `totalDuration`
only over the **new** chunks (the downloaded base audio's duration is
never added) and `addPagesToBook` stores
`combineResult.output.totalDuration || version.totalDuration` — so the
base rendering's 100 s vanish from the stored duration even though the
combined audio file contains them. -/
theorem addPages_total_duration_drops_base :
    addPagesToBook [durBook] "b1" "u1" (some "V1") ["img2"] durEnv =
      .ok ⟨"b1", "u1", "T", 2, ["p1", "p2"], [⟨"V1", "new.mp3", 20⟩], some "V1", [],
        "completed"⟩ ∧
    getCurrentTotalDuration durBook = 100 ∧
    getCurrentTotalDuration ⟨"b1", "u1", "T", 2, ["p1", "p2"],
      [⟨"V1", "new.mp3", 20⟩], some "V1", [], "completed"⟩ = 20 ∧
    (20 : ℚ) ≠ getCurrentTotalDuration durBook + 20 := by
  refine ⟨?_, ?_, ?_, ?_⟩
  · simp [addPagesToBook, durBook, durEnv, processUploads, processOCRBatch,
      processTTSBatch, collectOutputs, enumMap, sortK, insertK, runCombine,
      combineBookAudio, combineFail, jsOrNum, jsOrStr, strTruthy,
      getCurrentAudioUrl, getCurrentVoiceVersion, jsRound, List.find?]
    norm_num
  · simp [getCurrentTotalDuration, getCurrentVoiceVersion, durBook, strTruthy,
      jsOrNum, List.find?]
  · simp [getCurrentTotalDuration, getCurrentVoiceVersion, strTruthy,
      jsOrNum, List.find?]
  · simp [getCurrentTotalDuration, getCurrentVoiceVersion, durBook, strTruthy,
      jsOrNum, List.find?]

/-- Book for the Add Pages voice-validation check: only voice `V1` exists
and is active. -/
def voiceCheckBook : BookRecord :=
  ⟨"b1", "u1", "T", 1, ["p1"], [⟨"V1", "old.mp3", 100⟩], some "V1", [], "completed"⟩

/-- All-success environment for a 1-page append (chunk duration 20,
upload lands at `new.mp3`). -/
def voiceCheckEnv : PipelineEnv :=
  ⟨fun _ => ⟨true, some "u", none⟩,
   .runs [⟨true, some ⟨true, some "p2", some "high"⟩, none⟩],
   .runs [⟨true, some ⟨true, 1, some "c1", some 20⟩, none⟩],
   true, "", ⟨true, true, true, true, true, "new.mp3", "p"⟩, none⟩

/-- C8 counterexample: Add Pages with voice id `V2`, which has **no**
entry in the book's `voice_versions` (`[V1]`), is not rejected: the
operation runs the whole pipeline (synthesizing with `V2`) and succeeds,
and the voice version whose `audioUrl`/`totalDuration` are replaced is
`V1` — the book's **current** voice — while `V2` appears nowhere in the
result. -/
theorem addPages_unknown_voice_accepted :
    addPagesToBook [voiceCheckBook] "b1" "u1" (some "V2") ["img2"] voiceCheckEnv =
      .ok ⟨"b1", "u1", "T", 2, ["p1", "p2"], [⟨"V1", "new.mp3", 20⟩], some "V1", [],
        "completed"⟩ ∧
    (⟨"b1", "u1", "T", 2, ["p1", "p2"], [⟨"V1", "new.mp3", 20⟩], some "V1", [],
        "completed"⟩ : BookRecord).voiceVersions.map (fun v => v.voiceId) = ["V1"] := by
  refine ⟨?_, by simp⟩
  simp [addPagesToBook, voiceCheckBook, voiceCheckEnv, processUploads, processOCRBatch,
    processTTSBatch, collectOutputs, enumMap, sortK, insertK, runCombine,
    combineBookAudio, combineFail, jsOrNum, jsOrStr, strTruthy,
    getCurrentAudioUrl, getCurrentVoiceVersion, jsRound, List.find?]
  norm_num

/-- C8 amended: a successful Add Pages call only requires a non-empty
voice identifier — the identifier is never compared against
`voice_versions` — and the voice version whose audio reference and total
duration are replaced is the one matching the book's **current active
voice id** (`current_voice_id`), regardless of the supplied identifier;
every other entry and `current_voice_id` itself are unchanged. -/
theorem addPages_replaces_active_voice (books : List BookRecord)
    (bookId userId : String) (voiceId : Option String) (images : List String)
    (env : PipelineEnv) (book b : BookRecord)
    (hfind : books.find? (fun x => x.id == bookId && x.userId == userId) = some book)
    (hok : addPagesToBook books bookId userId voiceId images env = .ok b) :
    (∃ fu dOpt, b.voiceVersions = book.voiceVersions.map (fun version =>
      if some version.voiceId = book.currentVoiceId then
        { version with
          audioUrl := fu
          totalDuration := jsOrNum dOpt version.totalDuration }
      else version)) ∧
    b.currentVoiceId = book.currentVoiceId := by
  obtain ⟨book', imageUrls, pages, chunks, hfind', hstat, hup, hocr, htts, htext,
    hpc, hvv, hcv, hprog, hbstat, hbid⟩ := addPagesToBook_ok_inversion hok
  rw [hfind] at hfind'
  injection hfind' with h
  subst h
  exact ⟨hvv, hcv⟩

/-- Witness for `addPages_replaces_active_voice` at the concrete
unknown-voice append: the single `V1` entry (the active voice) is the one
rewritten. -/
theorem addPages_replaces_active_voice_witness :
    (∃ fu dOpt,
      (⟨"b1", "u1", "T", 2, ["p1", "p2"], [⟨"V1", "new.mp3", 20⟩], some "V1", [],
        "completed"⟩ : BookRecord).voiceVersions =
      voiceCheckBook.voiceVersions.map (fun version =>
        if some version.voiceId = voiceCheckBook.currentVoiceId then
          { version with
            audioUrl := fu
            totalDuration := jsOrNum dOpt version.totalDuration }
        else version)) ∧
    (⟨"b1", "u1", "T", 2, ["p1", "p2"], [⟨"V1", "new.mp3", 20⟩], some "V1", [],
        "completed"⟩ : BookRecord).currentVoiceId = voiceCheckBook.currentVoiceId :=
  addPages_replaces_active_voice [voiceCheckBook] "b1" "u1" (some "V2") ["img2"]
    voiceCheckEnv voiceCheckBook
    ⟨"b1", "u1", "T", 2, ["p1", "p2"], [⟨"V1", "new.mp3", 20⟩], some "V1", [],
      "completed"⟩
    (by decide)
    (by
      simp [addPagesToBook, voiceCheckBook, voiceCheckEnv, processUploads,
        processOCRBatch, processTTSBatch, collectOutputs, enumMap, sortK, insertK,
        runCombine, combineBookAudio, combineFail, jsOrNum, jsOrStr, strTruthy,
        getCurrentAudioUrl, getCurrentVoiceVersion, jsRound, List.find?]
      norm_num)
